import Mathlib

/-!
Verification of the picture-gallery management flow of the `PicturesBottomPanel`
React component (`src/cross-platform/react-app/src/frontend/CameraSample/PicturesBottomPanel.tsx`).

The component is modelled as a state machine.  `GalleryState` holds the four
pieces of React state of the component: `pictureUrls` (the sorted list fetched
from the image cache), `selectMode` (the edit/selection toggle), `selectedUrls`
(the multi-select set), and `decoratorActive` (the marker-decorator toggle).

Each UI handler becomes a pure function from the old state (plus the external
inputs the handler awaits: the store response of `ImageCache.getImages`, the
answer of the `presentYesNoAlert` confirmation dialog, the Bool result of
`ImageCache.pickImage`) to the new state together with a trace of `Effect`s,
recording the store commands issued and the notifications emitted.

`step` packages the handlers into a single transition function guarded exactly
as the UI guards them: a handler is available only when its button is rendered
and enabled (for example the edit toggle only renders when `pictureUrls` is
non-empty, and the per-picture delete button only renders outside select mode).
`Reachable` is the set of states reachable from the initial React state.

JavaScript `Array.prototype.sort()` with no comparator sorts strings by their
code units; this is modelled by sorting with the lexicographic order on the
underlying character lists (`String.data`), which agrees with Lean's `≤` on
`String`.
-/

/-- React state of the `PicturesBottomPanel` component. -/
structure GalleryState where
  pictureUrls : List String
  selectMode : Bool
  selectedUrls : Finset String
  decoratorActive : Bool
  deriving DecidableEq

/-- Observable side effects of a handler: store commands issued to `ImageCache`
and notifications emitted to sibling components, in order. -/
inductive Effect where
  | storeGetImages
  | reloaded
  | imageSelected (url : String)
  | shareImages (urls : Finset String)
  | deleteImages (urls : Finset String)
  | deleteAllImages
  | pickImage (fromLibrary : Bool)
  deriving DecidableEq

/-- Initial React state: `useState<string[]>([])`, `useState(false)` for
select mode, `useState(new Set<string>())`, `useState(true)` for the
decorator. -/
def initialState : GalleryState :=
  { pictureUrls := [], selectMode := false, selectedUrls := ∅, decoratorActive := true }

/-- The in-place `urls.sort()` of the reload handler: ascending lexicographic
sort of the URLs by their character lists, as JavaScript compares strings. -/
def urlSort (urls : List String) : List String :=
  List.insertionSort (fun a b => a.data ≤ b.data) urls

/-- The `reload` callback: fetch the URL list from `ImageCache.getImages`
(the response is the `storeUrls` parameter), sort it, replace `pictureUrls`;
if the sorted list is empty, reset `selectMode` and `selectedUrls`; always
emit the reloaded event afterward. -/
def reload (storeUrls : List String) (s : GalleryState) : GalleryState × List Effect :=
  let urls := urlSort storeUrls
  let s1 :=
    if urls.length = 0 then
      { s with pictureUrls := urls, selectMode := false, selectedUrls := ∅ }
    else
      { s with pictureUrls := urls }
  (s1, [Effect.storeGetImages, Effect.reloaded])

/-- The `togglePictureSelected` callback: flip membership of `pictureUrl` in
`selectedUrls`, leaving everything else alone. -/
def togglePictureSelected (pictureUrl : String) (s : GalleryState) : GalleryState :=
  let newSelected :=
    if pictureUrl ∈ s.selectedUrls then s.selectedUrls.erase pictureUrl
    else insert pictureUrl s.selectedUrls
  { s with selectedUrls := newSelected }

/-- The `handlePictureClick` callback: in select mode delegate to
`togglePictureSelected`, otherwise emit the image-selected event. -/
def handlePictureClick (pictureUrl : String) (s : GalleryState) : GalleryState × List Effect :=
  if s.selectMode then (togglePictureSelected pictureUrl s, [])
  else (s, [Effect.imageSelected pictureUrl])

/-- The per-picture delete button: if the yes/no alert is confirmed, issue
`ImageCache.deleteImages([pictureUrl])` and reload (with store response
`storeUrls`); otherwise do nothing. -/
def deletePicture (pictureUrl : String) (confirmed : Bool) (storeUrls : List String)
    (s : GalleryState) : GalleryState × List Effect :=
  if confirmed then
    let r := reload storeUrls s
    (r.1, Effect.deleteImages {pictureUrl} :: r.2)
  else (s, [])

/-- The edit navigation button: `setSelectMode(!selectMode)`. -/
def toggleEditMode (s : GalleryState) : GalleryState :=
  { s with selectMode := !s.selectMode }

/-- The camera / image tool buttons: `ImageCache.pickImage` returns `added`;
when it is true the handler reloads, otherwise nothing happens. -/
def pickImage (fromLibrary : Bool) (added : Bool) (storeUrls : List String)
    (s : GalleryState) : GalleryState × List Effect :=
  if added then
    let r := reload storeUrls s
    (r.1, Effect.pickImage fromLibrary :: r.2)
  else (s, [Effect.pickImage fromLibrary])

/-- The visibility navigation button: flip the decorator flag. -/
def toggleDecorator (s : GalleryState) : GalleryState :=
  { s with decoratorActive := !s.decoratorActive }

/-- The checkbox-select tool button: if `selectedUrls.size === pictureUrls.length`
clear the selection, otherwise select `new Set(pictureUrls)`. -/
def toggleSelectAll (s : GalleryState) : GalleryState :=
  if s.selectedUrls.card = s.pictureUrls.length then { s with selectedUrls := ∅ }
  else { s with selectedUrls := s.pictureUrls.toFinset }

/-- The delete tool button of select mode: `all` is
`pictureUrls.length === selectedUrls.size`; when `all` and the alert is
confirmed, issue `ImageCache.deleteAllImages` and reload; when not `all`
and the alert is confirmed, issue `ImageCache.deleteImages(Array.from(selectedUrls))`
and reload; otherwise do nothing. -/
def deleteSelected (confirmed : Bool) (storeUrls : List String)
    (s : GalleryState) : GalleryState × List Effect :=
  if confirmed then
    if s.pictureUrls.length = s.selectedUrls.card then
      let r := reload storeUrls s
      (r.1, Effect.deleteAllImages :: r.2)
    else
      let r := reload storeUrls s
      (r.1, Effect.deleteImages s.selectedUrls :: r.2)
  else (s, [])

/-- User-visible operations of the component, with the external inputs each
one consumes (store responses, confirmation answers, pick results). -/
inductive Op where
  | reload (storeUrls : List String)
  | pictureClick (pictureUrl : String)
  | sharePicture (pictureUrl : String)
  | deletePicture (pictureUrl : String) (confirmed : Bool) (storeUrls : List String)
  | toggleEditMode
  | pickImage (fromLibrary : Bool) (added : Bool) (storeUrls : List String)
  | toggleDecorator
  | toggleSelectAll
  | shareSelected
  | deleteSelected (confirmed : Bool) (storeUrls : List String)
  deriving DecidableEq

/-- One UI transition.  Returns `none` when the operation is unavailable in
state `s`, mirroring when the corresponding UI element is rendered and
enabled: click/share/delete of a single picture need that picture in the
list (and browse mode, for share and delete); the edit toggle only renders
for a non-empty list; camera, library and decorator buttons only render in
browse mode; select-all, share-selected and delete-selected only render in
select mode, the latter two enabled only for a non-empty selection. -/
def step (op : Op) (s : GalleryState) : Option (GalleryState × List Effect) :=
  match op with
  | .reload storeUrls => some (reload storeUrls s)
  | .pictureClick url =>
      if url ∈ s.pictureUrls then some (handlePictureClick url s) else none
  | .sharePicture url =>
      if url ∈ s.pictureUrls ∧ s.selectMode = false then
        some (s, [Effect.shareImages {url}])
      else none
  | .deletePicture url confirmed storeUrls =>
      if url ∈ s.pictureUrls ∧ s.selectMode = false then
        some (deletePicture url confirmed storeUrls s)
      else none
  | .toggleEditMode =>
      if s.pictureUrls.length > 0 then some (toggleEditMode s, []) else none
  | .pickImage fromLibrary added storeUrls =>
      if s.selectMode = false then some (pickImage fromLibrary added storeUrls s) else none
  | .toggleDecorator =>
      if s.selectMode = false then some (toggleDecorator s, []) else none
  | .toggleSelectAll =>
      if s.selectMode = true ∧ s.pictureUrls.length > 0 then
        some (toggleSelectAll s, [])
      else none
  | .shareSelected =>
      if s.selectMode = true ∧ s.selectedUrls.card > 0 then
        some (s, [Effect.shareImages s.selectedUrls])
      else none
  | .deleteSelected confirmed storeUrls =>
      if s.selectMode = true ∧ s.selectedUrls.card > 0 then
        some (deleteSelected confirmed storeUrls s)
      else none

/-- States reachable from the initial state by UI transitions. -/
inductive Reachable : GalleryState → Prop where
  | init : Reachable initialState
  | next {s s' : GalleryState} {op : Op} {effects : List Effect} :
      Reachable s → step op s = some (s', effects) → Reachable s'

/-- Invariant maintained by every transition: an empty picture list forces
browse mode and an empty selection. -/
def GalleryInv (s : GalleryState) : Prop :=
  s.pictureUrls = [] → s.selectMode = false ∧ s.selectedUrls = ∅

/-- Spec-side definition, following the specification text word for word:
the ascending lexicographically sorted, de-duplicated contents of the store
result.  Compared against what `reload` actually computes. -/
def specSortedDedup (storeUrls : List String) : List String :=
  urlSort storeUrls.dedup

/-- A reachable state with a stale selection: the URL `"a"` stays selected
after a delete-selected removed it from the store and the follow-up reload
returned the non-empty list `["b"]`. -/
def staleState : GalleryState :=
  { pictureUrls := ["b"], selectMode := true, selectedUrls := {"a"}, decoratorActive := true }

/-- A reachable select-mode state whose picture list contains a duplicate
(the store response contained one; `reload` only sorts, it does not
de-duplicate). -/
def dupListState : GalleryState :=
  { pictureUrls := ["a", "a"], selectMode := true, selectedUrls := ∅, decoratorActive := true }

instance : IsTotal String (fun a b => a.data ≤ b.data) :=
  ⟨fun a b => le_total a.data b.data⟩

instance : IsTrans String (fun a b => a.data ≤ b.data) :=
  ⟨fun _ _ _ h1 h2 => le_trans h1 h2⟩

/-- Comparing the character lists is the lexicographic order on strings. -/
theorem data_le_iff (a b : String) : a.data ≤ b.data ↔ a ≤ b :=
  Iff.symm String.le_iff_toList_le

/-- The sort used by `reload` produces a list sorted by `≤` on `String`. -/
theorem urlSort_sorted (urls : List String) : (urlSort urls).Sorted (· ≤ ·) := by
  have h := List.sorted_insertionSort (fun a b : String => a.data ≤ b.data) urls
  exact h.imp fun hab => (data_le_iff _ _).mp hab

/-- The sort used by `reload` is a permutation of its input. -/
theorem urlSort_perm (urls : List String) : (urlSort urls).Perm urls :=
  List.perm_insertionSort _ _

/-- The picture list after `reload` is exactly the sorted store response. -/
theorem reload_fst_pictureUrls (storeUrls : List String) (s : GalleryState) :
    (reload storeUrls s).1.pictureUrls = urlSort storeUrls := by
  simp only [reload]
  split <;> rfl

/-- The effects of a reload are always the store fetch followed by the
reloaded notification. -/
theorem reload_snd (storeUrls : List String) (s : GalleryState) :
    (reload storeUrls s).2 = [Effect.storeGetImages, Effect.reloaded] :=
  rfl

/-- The selection after a reload is either untouched (non-empty result) or
cleared (empty result). -/
theorem reload_selectedUrls_or (storeUrls : List String) (s : GalleryState) :
    (reload storeUrls s).1.selectedUrls = s.selectedUrls ∨
      (reload storeUrls s).1.selectedUrls = ∅ := by
  by_cases hl : (urlSort storeUrls).length = 0
  · right
    simp [reload, hl]
  · left
    simp [reload, hl]

/-- A reload establishes the invariant: an empty fetched list resets both
select mode and the selection, and a non-empty one keeps the list non-empty. -/
theorem reload_inv (storeUrls : List String) (s : GalleryState) :
    GalleryInv (reload storeUrls s).1 := by
  unfold GalleryInv
  by_cases hl : (urlSort storeUrls).length = 0
  · intro _
    constructor <;> simp [reload, hl]
  · intro hnil
    rw [reload_fst_pictureUrls] at hnil
    exact absurd (by rw [hnil]; rfl : (urlSort storeUrls).length = 0) hl

/-- If a reload flipped select mode, the fetched list was empty: the new
state has an empty picture list and select mode went from on to off. -/
theorem reload_selectMode_change (storeUrls : List String) (s : GalleryState)
    (h : (reload storeUrls s).1.selectMode ≠ s.selectMode) :
    (reload storeUrls s).1.pictureUrls = [] ∧ s.selectMode = true ∧
      (reload storeUrls s).1.selectMode = false := by
  by_cases hl : (urlSort storeUrls).length = 0
  · have hp : (reload storeUrls s).1.pictureUrls = [] := by
      rw [reload_fst_pictureUrls]
      exact List.length_eq_zero.mp hl
    have hm : (reload storeUrls s).1.selectMode = false := by
      simp [reload, hl]
    refine ⟨hp, ?_, hm⟩
    rw [hm] at h
    cases hsm : s.selectMode
    · rw [hsm] at h
      exact absurd rfl h
    · rfl
  · exact absurd (by simp [reload, hl]) h

/-- The select-all toggle never changes the picture list. -/
theorem toggleSelectAll_pictureUrls (s : GalleryState) :
    (toggleSelectAll s).pictureUrls = s.pictureUrls := by
  unfold toggleSelectAll
  split <;> rfl

/-- The select-all toggle never changes select mode. -/
theorem toggleSelectAll_selectMode (s : GalleryState) :
    (toggleSelectAll s).selectMode = s.selectMode := by
  unfold toggleSelectAll
  split <;> rfl

/-- The select-all toggle either clears the selection or selects exactly the
listed URLs. -/
theorem toggleSelectAll_selectedUrls (s : GalleryState) :
    (toggleSelectAll s).selectedUrls = ∅ ∨
      (toggleSelectAll s).selectedUrls = s.pictureUrls.toFinset := by
  unfold toggleSelectAll
  split
  · exact Or.inl rfl
  · exact Or.inr rfl

/-- Case analysis of one transition: the new state is a reload result, the
old state unchanged, a decorator flip, or (with a non-empty picture list) an
edit toggle, a select-all toggle, or a single-picture selection toggle on a
listed URL. -/
theorem step_shape (op : Op) (s s' : GalleryState) (effects : List Effect)
    (h : step op s = some (s', effects)) :
    (∃ storeUrls, s' = (reload storeUrls s).1) ∨
    s' = s ∨
    s' = toggleDecorator s ∨
    (s.pictureUrls ≠ [] ∧
      ((op = Op.toggleEditMode ∧ s' = toggleEditMode s) ∨
       (op = Op.toggleSelectAll ∧ s' = toggleSelectAll s) ∨
       (∃ url, url ∈ s.pictureUrls ∧ s' = togglePictureSelected url s))) := by
  cases op with
  | reload storeUrls =>
      injection h with h
      exact Or.inl ⟨storeUrls, (congrArg Prod.fst h).symm⟩
  | pictureClick url =>
      simp only [step] at h
      split at h
      case isTrue hg =>
        injection h with h
        unfold handlePictureClick at h
        split at h
        case isTrue hm =>
          refine Or.inr (Or.inr (Or.inr ⟨List.ne_nil_of_mem hg, Or.inr (Or.inr ?_)⟩))
          exact ⟨url, hg, (congrArg Prod.fst h).symm⟩
        case isFalse hm =>
          exact Or.inr (Or.inl (congrArg Prod.fst h).symm)
      case isFalse => exact absurd h (by simp)
  | sharePicture url =>
      simp only [step] at h
      split at h
      case isTrue hg =>
        injection h with h
        exact Or.inr (Or.inl (congrArg Prod.fst h).symm)
      case isFalse => exact absurd h (by simp)
  | deletePicture url confirmed storeUrls =>
      simp only [step] at h
      split at h
      case isTrue hg =>
        injection h with h
        cases confirmed with
        | false =>
            simp only [deletePicture, Bool.false_eq_true, if_false] at h
            exact Or.inr (Or.inl (congrArg Prod.fst h).symm)
        | true =>
            have h2 : ((reload storeUrls s).1,
                Effect.deleteImages {url} :: (reload storeUrls s).2) = (s', effects) := h
            exact Or.inl ⟨storeUrls, (congrArg Prod.fst h2).symm⟩
      case isFalse => exact absurd h (by simp)
  | toggleEditMode =>
      simp only [step] at h
      split at h
      case isTrue hg =>
        injection h with h
        refine Or.inr (Or.inr (Or.inr ⟨List.length_pos.mp hg, Or.inl ?_⟩))
        exact ⟨rfl, (congrArg Prod.fst h).symm⟩
      case isFalse => exact absurd h (by simp)
  | pickImage fromLibrary added storeUrls =>
      simp only [step] at h
      split at h
      case isTrue hg =>
        injection h with h
        cases added with
        | false =>
            simp only [pickImage, Bool.false_eq_true, if_false] at h
            exact Or.inr (Or.inl (congrArg Prod.fst h).symm)
        | true =>
            have h2 : ((reload storeUrls s).1,
                Effect.pickImage fromLibrary :: (reload storeUrls s).2) = (s', effects) := h
            exact Or.inl ⟨storeUrls, (congrArg Prod.fst h2).symm⟩
      case isFalse => exact absurd h (by simp)
  | toggleDecorator =>
      simp only [step] at h
      split at h
      case isTrue hg =>
        injection h with h
        exact Or.inr (Or.inr (Or.inl (congrArg Prod.fst h).symm))
      case isFalse => exact absurd h (by simp)
  | toggleSelectAll =>
      simp only [step] at h
      split at h
      case isTrue hg =>
        injection h with h
        refine Or.inr (Or.inr (Or.inr ⟨List.length_pos.mp hg.2, Or.inr (Or.inl ?_)⟩))
        exact ⟨rfl, (congrArg Prod.fst h).symm⟩
      case isFalse => exact absurd h (by simp)
  | shareSelected =>
      simp only [step] at h
      split at h
      case isTrue hg =>
        injection h with h
        exact Or.inr (Or.inl (congrArg Prod.fst h).symm)
      case isFalse => exact absurd h (by simp)
  | deleteSelected confirmed storeUrls =>
      simp only [step] at h
      split at h
      case isTrue hg =>
        injection h with h
        cases confirmed with
        | false =>
            simp only [deleteSelected, Bool.false_eq_true, if_false] at h
            exact Or.inr (Or.inl (congrArg Prod.fst h).symm)
        | true =>
            by_cases hc : s.pictureUrls.length = s.selectedUrls.card
            · have h2 : ((reload storeUrls s).1,
                  Effect.deleteAllImages :: (reload storeUrls s).2) = (s', effects) := by
                simpa only [deleteSelected, if_pos hc, if_true] using h
              exact Or.inl ⟨storeUrls, (congrArg Prod.fst h2).symm⟩
            · have h2 : ((reload storeUrls s).1,
                  Effect.deleteImages s.selectedUrls :: (reload storeUrls s).2) = (s', effects) := by
                simpa only [deleteSelected, if_neg hc, if_true] using h
              exact Or.inl ⟨storeUrls, (congrArg Prod.fst h2).symm⟩
      case isFalse => exact absurd h (by simp)

/-- Every transition preserves the invariant. -/
theorem step_inv {s s' : GalleryState} {op : Op} {effects : List Effect}
    (h : step op s = some (s', effects)) (hinv : GalleryInv s) : GalleryInv s' := by
  rcases step_shape op s s' effects h with ⟨u, rfl⟩ | rfl | rfl | ⟨hne, hcase⟩
  · exact reload_inv u s
  · exact hinv
  · intro hnil
    exact hinv hnil
  · rcases hcase with ⟨-, rfl⟩ | ⟨-, rfl⟩ | ⟨url, hmem, rfl⟩
    · intro hnil
      exact absurd hnil hne
    · intro hnil
      rw [toggleSelectAll_pictureUrls] at hnil
      exact absurd hnil hne
    · intro hnil
      exact absurd hnil hne

/-- Every reachable state satisfies the invariant. -/
theorem reachable_inv {s : GalleryState} (h : Reachable s) : GalleryInv s := by
  induction h with
  | init => exact fun _ => ⟨rfl, rfl⟩
  | next hr hstep ih => exact step_inv hstep ih

/-- The stale-selection state is reachable: load `["a","b"]`, enter select
mode, select `"a"`, delete the selection with confirmation, and reload to
the non-empty `["b"]`. -/
theorem staleState_reachable : Reachable staleState := by
  have h1 : Reachable (⟨["a", "b"], false, ∅, true⟩ : GalleryState) :=
    Reachable.next Reachable.init
      (show step (Op.reload ["a", "b"]) initialState =
        some (⟨["a", "b"], false, ∅, true⟩, [Effect.storeGetImages, Effect.reloaded]) by decide)
  have h2 : Reachable (⟨["a", "b"], true, ∅, true⟩ : GalleryState) :=
    Reachable.next h1
      (show step Op.toggleEditMode ⟨["a", "b"], false, ∅, true⟩ =
        some (⟨["a", "b"], true, ∅, true⟩, []) by decide)
  have h3 : Reachable (⟨["a", "b"], true, {"a"}, true⟩ : GalleryState) :=
    Reachable.next h2
      (show step (Op.pictureClick "a") ⟨["a", "b"], true, ∅, true⟩ =
        some (⟨["a", "b"], true, {"a"}, true⟩, []) by decide)
  exact Reachable.next h3
    (show step (Op.deleteSelected true ["b"]) ⟨["a", "b"], true, {"a"}, true⟩ =
      some (staleState, [Effect.deleteImages {"a"}, Effect.storeGetImages, Effect.reloaded])
      by decide)

/-- The duplicate-list select-mode state is reachable: the store returns
`["a","a"]` and the user enters select mode. -/
theorem dupListState_reachable : Reachable dupListState := by
  have h1 : Reachable (⟨["a", "a"], false, ∅, true⟩ : GalleryState) :=
    Reachable.next Reachable.init
      (show step (Op.reload ["a", "a"]) initialState =
        some (⟨["a", "a"], false, ∅, true⟩, [Effect.storeGetImages, Effect.reloaded]) by decide)
  exact Reachable.next h1
    (show step Op.toggleEditMode ⟨["a", "a"], false, ∅, true⟩ =
      some (dupListState, []) by decide)

/-- Claim C1 counterexample: the subset invariant `selectedUrls ⊆ pictureUrls`
fails in a reachable state.  After selecting `"a"` out of `["a","b"]` and
deleting the selection (confirmed), the follow-up reload returns the
non-empty `["b"]` and leaves the stale `"a"` in the selection. -/
theorem selected_subset_counterexample :
    Reachable staleState ∧ ¬ staleState.selectedUrls ⊆ staleState.pictureUrls.toFinset :=
  ⟨staleState_reachable, by decide⟩

/-- Claim C1 (amended): `selectedUrls ⊆ pictureUrls` is not an invariant —
a delete of a proper subset of the pictures followed by a non-empty reload
leaves stale selected URLs.  What every transition does guarantee is that
the selection only ever gains URLs present in the new picture list, and in
every reachable state an empty picture list forces an empty selection. -/
theorem selectedUrls_growth {s s' : GalleryState} {op : Op} {effects : List Effect}
    (hs : Reachable s) (h : step op s = some (s', effects)) :
    s'.selectedUrls ⊆ s.selectedUrls ∪ s'.pictureUrls.toFinset ∧
    (s'.pictureUrls = [] → s'.selectedUrls = ∅) := by
  constructor
  · rcases step_shape op s s' effects h with ⟨u, rfl⟩ | rfl | rfl | ⟨hne, hcase⟩
    · rcases reload_selectedUrls_or u s with h1 | h1 <;> rw [h1]
      · exact Finset.subset_union_left
      · exact Finset.empty_subset _
    · exact Finset.subset_union_left
    · exact Finset.subset_union_left
    · rcases hcase with ⟨-, rfl⟩ | ⟨-, rfl⟩ | ⟨url, hmem, rfl⟩
      · exact Finset.subset_union_left
      · rcases toggleSelectAll_selectedUrls s with h1 | h1 <;> rw [h1]
        · exact Finset.empty_subset _
        · rw [toggleSelectAll_pictureUrls]
          exact Finset.subset_union_right
      · simp only [togglePictureSelected]
        split
        · exact (Finset.erase_subset _ _).trans Finset.subset_union_left
        · intro x hx
          rcases Finset.mem_insert.mp hx with rfl | hx2
          · exact Finset.mem_union_right _ (List.mem_toFinset.mpr hmem)
          · exact Finset.mem_union_left _ hx2
  · intro hnil
    exact ((reachable_inv (Reachable.next hs h)) hnil).2

/-- Claim C1 witness: the growth bound evaluated on the initial reload. -/
theorem selectedUrls_growth_witness :
    (⟨["a"], false, ∅, true⟩ : GalleryState).selectedUrls ⊆
      initialState.selectedUrls ∪
        (⟨["a"], false, ∅, true⟩ : GalleryState).pictureUrls.toFinset :=
  (selectedUrls_growth Reachable.init
    (show step (Op.reload ["a"]) initialState =
      some (⟨["a"], false, ∅, true⟩, [Effect.storeGetImages, Effect.reloaded]) by decide)).1

/-- Claim C2 counterexample: `reload` sorts but does not de-duplicate — the
store result `["a","a"]` yields the picture list `["a","a"]`, not the sorted
de-duplicated `["a"]` the claim describes. -/
theorem reload_dedup_counterexample :
    (reload ["a", "a"] initialState).1.pictureUrls ≠ specSortedDedup ["a", "a"] := by
  decide

/-- Claim C2 (amended): after `reload` the picture list is the store result
in ascending lexicographic order with duplicates preserved (a sorted
permutation); when the store result is duplicate-free this coincides with
the sorted de-duplicated contents, and `["b.jpg","a.jpg"]` reloads to
`["a.jpg","b.jpg"]`. -/
theorem reload_sorts_store_result (storeUrls : List String) (s : GalleryState) :
    ((reload storeUrls s).1.pictureUrls).Sorted (· ≤ ·) ∧
    ((reload storeUrls s).1.pictureUrls).Perm storeUrls ∧
    (storeUrls.Nodup → (reload storeUrls s).1.pictureUrls = specSortedDedup storeUrls) ∧
    (reload ["b.jpg", "a.jpg"] s).1.pictureUrls = ["a.jpg", "b.jpg"] := by
  refine ⟨?_, ?_, ?_, ?_⟩
  · rw [reload_fst_pictureUrls]
    exact urlSort_sorted storeUrls
  · rw [reload_fst_pictureUrls]
    exact urlSort_perm storeUrls
  · intro hnd
    rw [reload_fst_pictureUrls]
    unfold specSortedDedup
    rw [List.dedup_eq_self.mpr hnd]
  · rw [reload_fst_pictureUrls]
    decide

/-- Claim C2 witness: for the duplicate-free store result
`["b.jpg","a.jpg"]` the reloaded list equals the spec's sorted
de-duplicated contents. -/
theorem reload_sorts_store_result_witness :
    (reload ["b.jpg", "a.jpg"] initialState).1.pictureUrls =
      specSortedDedup ["b.jpg", "a.jpg"] :=
  (reload_sorts_store_result ["b.jpg", "a.jpg"] initialState).2.2.1 (by decide)

/-- Claim C3: with a confirming user, the select-mode delete issues the bulk
delete-all if and only if the selected count equals the picture count;
otherwise it issues the delete-by-list with exactly the selected URLs (and
not the bulk delete, and vice versa); in either case the new state is the
reload result and the reloaded notification fires. -/
theorem deleteSelected_dispatch (storeUrls : List String) (s : GalleryState) :
    (Effect.deleteAllImages ∈ (deleteSelected true storeUrls s).2 ↔
      s.selectedUrls.card = s.pictureUrls.length) ∧
    (s.selectedUrls.card ≠ s.pictureUrls.length →
      Effect.deleteImages s.selectedUrls ∈ (deleteSelected true storeUrls s).2) ∧
    (s.selectedUrls.card = s.pictureUrls.length →
      Effect.deleteImages s.selectedUrls ∉ (deleteSelected true storeUrls s).2) ∧
    (deleteSelected true storeUrls s).1 = (reload storeUrls s).1 ∧
    Effect.reloaded ∈ (deleteSelected true storeUrls s).2 := by
  by_cases hc : s.pictureUrls.length = s.selectedUrls.card
  · simp [deleteSelected, hc, reload_snd]
  · have hc2 : ¬ s.selectedUrls.card = s.pictureUrls.length := fun h => hc h.symm
    simp [deleteSelected, hc, hc2, reload_snd]

/-- Claim C3 witness: with `["a","b"]` listed and only `"a"` selected, the
confirmed delete issues the delete-by-list with exactly `{"a"}`. -/
theorem deleteSelected_dispatch_witness :
    Effect.deleteImages ({"a"} : Finset String) ∈
      (deleteSelected true ["b"] ⟨["a", "b"], true, {"a"}, true⟩).2 :=
  (deleteSelected_dispatch ["b"] ⟨["a", "b"], true, {"a"}, true⟩).2.1 (by decide)

/-- Claim C4: a reload that fetches an empty picture list resets select mode
and clears the selection, whatever the prior state was. -/
theorem reload_empty_resets (s : GalleryState) :
    (reload [] s).1.selectMode = false ∧ (reload [] s).1.selectedUrls = ∅ :=
  ⟨rfl, rfl⟩

/-- Claim C5: in every reachable state, select mode implies a non-empty
picture list; and the only transitions that change select mode are the
explicit edit toggle (available only with a non-empty list) and the
automatic reset of a mutation whose reload leaves the list empty. -/
theorem selectMode_state_machine (s : GalleryState) (hs : Reachable s) :
    (s.selectMode = true → s.pictureUrls ≠ []) ∧
    (∀ (op : Op) (s' : GalleryState) (effects : List Effect),
      step op s = some (s', effects) → s'.selectMode ≠ s.selectMode →
      (op = Op.toggleEditMode ∧ s.pictureUrls ≠ []) ∨
      (s'.pictureUrls = [] ∧ s.selectMode = true ∧ s'.selectMode = false)) := by
  constructor
  · intro hm hnil
    have h1 := ((reachable_inv hs) hnil).1
    rw [hm] at h1
    exact Bool.noConfusion h1
  · intro op s' effects h hne
    rcases step_shape op s s' effects h with ⟨u, rfl⟩ | rfl | rfl | ⟨hnil, hcase⟩
    · exact Or.inr (reload_selectMode_change u s hne)
    · exact absurd rfl hne
    · exact absurd rfl hne
    · rcases hcase with ⟨hop, rfl⟩ | ⟨-, rfl⟩ | ⟨url, hmem, rfl⟩
      · exact Or.inl ⟨hop, hnil⟩
      · exact absurd (toggleSelectAll_selectMode s) hne
      · exact absurd rfl hne

/-- Claim C5 witness: applied to the reachable select-mode state, whose
picture list is indeed non-empty. -/
theorem selectMode_state_machine_witness : staleState.pictureUrls ≠ [] :=
  (selectMode_state_machine staleState staleState_reachable).1 rfl

/-- Claim C6: the per-picture delete with a declined dialog issues no store
operation and leaves the whole state unchanged; with a confirmed dialog it
issues exactly the single-URL delete followed by the reload fetch and the
reloaded notification, and the new state is the reload result. -/
theorem deletePicture_requires_confirmation (pictureUrl : String)
    (storeUrls : List String) (s : GalleryState) :
    deletePicture pictureUrl false storeUrls s = (s, []) ∧
    (deletePicture pictureUrl true storeUrls s).1 = (reload storeUrls s).1 ∧
    (deletePicture pictureUrl true storeUrls s).2 =
      [Effect.deleteImages {pictureUrl}, Effect.storeGetImages, Effect.reloaded] :=
  ⟨rfl, rfl, rfl⟩

/-- Claim C7 counterexample: from the reachable, not-all-selected select-mode
state whose picture list is `["a","a"]`, two consecutive select-all toggles
do not end with an empty selection: `new Set(["a","a"])` has size 1, never
equal to the length 2, so the second toggle selects all again instead of
clearing. -/
theorem toggleSelectAll_twice_counterexample :
    Reachable dupListState ∧
    dupListState.selectedUrls.card ≠ dupListState.pictureUrls.length ∧
    (toggleSelectAll (toggleSelectAll dupListState)).selectedUrls ≠ ∅ :=
  ⟨dupListState_reachable, by decide, by decide⟩

/-- Claim C7 (amended): the select-all toggle clears the selection when the
selected count equals the picture count and otherwise selects exactly the
listed URLs; two consecutive toggles from a not-all-selected state yield
first the full set and then the empty set provided the picture list is
duplicate-free. -/
theorem toggleSelectAll_spec (s : GalleryState) :
    (s.selectedUrls.card = s.pictureUrls.length → (toggleSelectAll s).selectedUrls = ∅) ∧
    (s.selectedUrls.card ≠ s.pictureUrls.length →
      (toggleSelectAll s).selectedUrls = s.pictureUrls.toFinset) ∧
    (s.pictureUrls.Nodup → s.selectedUrls.card ≠ s.pictureUrls.length →
      (toggleSelectAll s).selectedUrls = s.pictureUrls.toFinset ∧
      (toggleSelectAll (toggleSelectAll s)).selectedUrls = ∅) := by
  refine ⟨?_, ?_, ?_⟩
  · intro hc
    simp [toggleSelectAll, hc]
  · intro hc
    simp [toggleSelectAll, hc]
  · intro hnd hc
    have hcard : s.pictureUrls.toFinset.card = s.pictureUrls.length :=
      List.toFinset_card_of_nodup hnd
    constructor
    · simp [toggleSelectAll, hc]
    · simp [toggleSelectAll, hc, hcard]

/-- Claim C7 witness: two toggles on a duplicate-free two-element list with
nothing selected: first everything is selected, then nothing. -/
theorem toggleSelectAll_spec_witness :
    (toggleSelectAll (⟨["a", "b"], true, ∅, true⟩ : GalleryState)).selectedUrls =
      (⟨["a", "b"], true, ∅, true⟩ : GalleryState).pictureUrls.toFinset ∧
    (toggleSelectAll (toggleSelectAll
      (⟨["a", "b"], true, ∅, true⟩ : GalleryState))).selectedUrls = ∅ :=
  (toggleSelectAll_spec ⟨["a", "b"], true, ∅, true⟩).2.2 (by decide) (by decide)

/-- Claim C8: the pick handler always issues the acquisition request; when
the store confirms an image was added it reloads (new state is the reload
result, and the fetch and reloaded notification follow the request); when
the store declines, the state is unchanged and only the request was issued. -/
theorem pickImage_reload_on_added (fromLibrary : Bool) (storeUrls : List String)
    (s : GalleryState) :
    (pickImage fromLibrary true storeUrls s).1 = (reload storeUrls s).1 ∧
    (pickImage fromLibrary true storeUrls s).2 =
      [Effect.pickImage fromLibrary, Effect.storeGetImages, Effect.reloaded] ∧
    pickImage fromLibrary false storeUrls s = (s, [Effect.pickImage fromLibrary]) :=
  ⟨rfl, rfl, rfl⟩

/-- Claim C9: the selection toggle is an involution, it flips exactly the
membership of the toggled URL, and it leaves every other URL's membership,
the picture list and select mode unchanged. -/
theorem togglePictureSelected_involution (pictureUrl : String) (s : GalleryState) :
    togglePictureSelected pictureUrl (togglePictureSelected pictureUrl s) = s ∧
    (pictureUrl ∈ (togglePictureSelected pictureUrl s).selectedUrls ↔
      pictureUrl ∉ s.selectedUrls) ∧
    (∀ u : String, u ≠ pictureUrl →
      (u ∈ (togglePictureSelected pictureUrl s).selectedUrls ↔ u ∈ s.selectedUrls)) ∧
    (togglePictureSelected pictureUrl s).pictureUrls = s.pictureUrls ∧
    (togglePictureSelected pictureUrl s).selectMode = s.selectMode := by
  obtain ⟨pics, sm, sel, dec⟩ := s
  by_cases h : pictureUrl ∈ sel
  · refine ⟨?_, ?_, ?_, rfl, rfl⟩
    · simp [togglePictureSelected, h, Finset.insert_erase h]
    · simp [togglePictureSelected, h]
    · intro u hu
      simp [togglePictureSelected, h, Finset.mem_erase, hu]
  · refine ⟨?_, ?_, ?_, rfl, rfl⟩
    · simp [togglePictureSelected, h, Finset.erase_insert h]
    · simp [togglePictureSelected, h]
    · intro u hu
      simp [togglePictureSelected, h, Finset.mem_insert, hu]

/-- Claim C9 witness: toggling `"a"` in the stale state leaves the
membership of the other URL `"b"` untouched. -/
theorem togglePictureSelected_involution_witness :
    ("b" ∈ (togglePictureSelected "a" staleState).selectedUrls ↔
      "b" ∈ staleState.selectedUrls) :=
  (togglePictureSelected_involution "a" staleState).2.2.1 "b" (by decide)

/-- Claim C10: a reload of a non-empty store result changes neither select
mode nor the selection; the decorator flag is never touched by a reload; and
the reloaded notification is emitted on every reload, empty or not. -/
theorem reload_frame (storeUrls : List String) (s : GalleryState) :
    (storeUrls ≠ [] →
      (reload storeUrls s).1.selectMode = s.selectMode ∧
      (reload storeUrls s).1.selectedUrls = s.selectedUrls) ∧
    (reload storeUrls s).1.decoratorActive = s.decoratorActive ∧
    Effect.reloaded ∈ (reload storeUrls s).2 := by
  refine ⟨?_, ?_, ?_⟩
  · intro hne
    have hl : ¬ (urlSort storeUrls).length = 0 := by
      rw [urlSort, List.length_insertionSort]
      exact fun h => hne (List.length_eq_zero.mp h)
    constructor <;> simp [reload, hl]
  · by_cases hl : (urlSort storeUrls).length = 0 <;> simp [reload, hl]
  · simp [reload]

/-- Claim C10 witness: reloading the non-empty `["a"]` from the select-mode
stale state keeps select mode on and the selection `{"a"}` intact. -/
theorem reload_frame_witness :
    (reload ["a"] staleState).1.selectMode = staleState.selectMode ∧
    (reload ["a"] staleState).1.selectedUrls = staleState.selectedUrls :=
  (reload_frame ["a"] staleState).1 (by decide)
